import Mathlib

/-!
Verification of the field translator and validation bridge in
`pydantic_django_forms/forms.py`.

The embedding mirrors the Python module closely:

* `Ty` is the grammar of declared type annotations as the module inspects
  them with `get_origin` and `get_args`: an atomic type, a flattened union
  (Python unions cannot nest and auto-flatten), or an `Annotated` wrapper.
* `FieldInfo` models the pydantic `FieldInfo` object: the `ann` field models
  `field_info.annotation`, `required` models `field_info.is_required()`,
  `default` models `field_info.get_default()`, and `metadata` carries the
  `annotated_types` constraint objects.
* `DjangoField` models the constructed `django.forms` field objects with the
  keyword arguments the module passes.
* Numeric constraint payloads are rationals, covering both the integer and
  the float constructors, which apply the same arithmetic to the raw value.
* The `try`/`except` around `forms.ChoiceField` is modelled by an explicit
  `choice_raises` flag that selects the exception branch of the `try` block.
-/

namespace PydanticDjangoForms

/-- Atomic (non-union, non-annotated) type expressions the module can meet. -/
inductive Atom : Type where
  | str
  | int
  | float
  | bool
  | date
  | datetime
  | none_
  | literal (values : List String)
  | other (name : String)
  deriving DecidableEq

/-- A declared annotation: an atom, a flattened union of atoms, or an
`Annotated[actual, ...]` wrapper around an underlying annotation. -/
inductive Ty : Type where
  | atom (a : Atom)
  | union (args : List Atom)
  | annotated (actual : Ty)
  deriving DecidableEq

/-- Runtime values passed around as defaults and initial values. -/
inductive Value : Type where
  | str (s : String)
  | int (n : Int)
  | rat (q : Rat)
  | bool (b : Bool)
  | none_
  deriving DecidableEq

/-- Constraint objects from `annotated_types` found in `field_info.metadata`. -/
inductive Constraint : Type where
  | ge (v : Rat)
  | gt (v : Rat)
  | le (v : Rat)
  | lt (v : Rat)
  | maxLen (v : Int)
  | minLen (v : Int)
  deriving DecidableEq

/-- The pydantic `FieldInfo` data the module reads. -/
structure FieldInfo where
  ann : Option Ty
  required : Bool
  default : Option Value
  description : Option String
  metadata : List Constraint
  deriving DecidableEq

/-- The `django.forms` field objects the module constructs, with the keyword
arguments it passes to each constructor. -/
inductive DjangoField : Type where
  | charField (required : Bool) (initial : Option Value)
      (min_length max_length : Int) (help_text : String)
  | choiceField (choices : List (String × String)) (required : Bool)
      (initial : Option Value) (help_text : String)
  | integerField (required : Bool) (initial : Option Value)
      (min_value max_value : Option Rat) (help_text : String)
  | floatField (required : Bool) (initial : Option Value)
      (min_value max_value : Option Rat) (help_text : String)
  | booleanField (required : Bool) (initial : Option Value) (help_text : String)
  | dateField (required : Bool) (initial : Option Value) (help_text : String)
  | dateTimeField (required : Bool) (initial : Option Value) (help_text : String)
  deriving DecidableEq

/-- The kind of a constructed form field. -/
inductive FieldKind : Type where
  | char
  | choice
  | integer
  | float
  | boolean
  | date
  | datetime
  deriving DecidableEq

def DjangoField.kind : DjangoField → FieldKind
  | .charField .. => .char
  | .choiceField .. => .choice
  | .integerField .. => .integer
  | .floatField .. => .float
  | .booleanField .. => .boolean
  | .dateField .. => .date
  | .dateTimeField .. => .datetime

def DjangoField.requiredFlag : DjangoField → Bool
  | .charField r _ _ _ _ => r
  | .choiceField _ r _ _ => r
  | .integerField r _ _ _ _ => r
  | .floatField r _ _ _ _ => r
  | .booleanField r _ _ => r
  | .dateField r _ _ => r
  | .dateTimeField r _ _ => r

def DjangoField.minValue : DjangoField → Option Rat
  | .integerField _ _ mn _ _ => mn
  | .floatField _ _ mn _ _ => mn
  | _ => none

def DjangoField.maxValue : DjangoField → Option Rat
  | .integerField _ _ _ mx _ => mx
  | .floatField _ _ _ mx _ => mx
  | _ => none

def DjangoField.maxLengthValue : DjangoField → Option Int
  | .charField _ _ _ mx _ => some mx
  | _ => none

/-- `union_to_field_type`: collect the union arguments, filter out the absence
type, and return the first type of the priority list `[str, float, int, date,
datetime]` that occurs among the remaining members, or `none`. -/
def union_to_field_type (field_type : Option Ty) : Option Ty :=
  let union_args : List Atom :=
    match field_type with
    | some (Ty.union args) => args
    | _ => []
  let type_classes := union_args.filter (fun arg => arg ≠ Atom.none_)
  let prio : List Atom := [Atom.str, Atom.float, Atom.int, Atom.date, Atom.datetime]
  (prio.find? (fun t => type_classes.contains t)).map Ty.atom

/-- The loop body of `_create_string_field` over one constraint: the state is
the pair (max length, min length), updated by `MaxLen` and `MinLen`. -/
def string_constraint_step (b : Int × Int) (c : Constraint) : Int × Int :=
  match c with
  | Constraint.maxLen v => (v, b.2)
  | Constraint.minLen v => (b.1, v)
  | _ => b

/-- The loop body shared textually by `_create_integer_field` and
`_create_float_field`: the state is the pair (min value, max value), updated
by `Ge` (direct), `Gt` (value + 1), `Le` (direct) and `Lt` (value - 1). -/
def numeric_constraint_step (b : Option Rat × Option Rat) (c : Constraint) :
    Option Rat × Option Rat :=
  match c with
  | Constraint.ge v => (some v, b.2)
  | Constraint.gt v => (some (v + 1), b.2)
  | Constraint.le v => (b.1, some v)
  | Constraint.lt v => (b.1, some (v - 1))
  | _ => b

/-- `_create_string_field`: a CharField with min and max length taken from the
last `MinLen` and `MaxLen` constraints, defaulting to 0 and 2000. -/
def create_string_field (field_info : FieldInfo) (is_required : Bool)
    (dflt : Option Value) : DjangoField :=
  let bounds := field_info.metadata.foldl string_constraint_step (2000, 0)
  DjangoField.charField is_required dflt bounds.2 bounds.1
    (field_info.description.getD "")

/-- `_create_integer_field`: an IntegerField whose min value comes from `Ge`
and `Gt` and whose max value comes from `Le` and `Lt`, each later constraint
overwriting the earlier ones. -/
def create_integer_field (field_info : FieldInfo) (is_required : Bool)
    (dflt : Option Value) : DjangoField :=
  let bounds := field_info.metadata.foldl numeric_constraint_step (none, none)
  DjangoField.integerField is_required dflt bounds.1 bounds.2
    (field_info.description.getD "")

/-- `_create_float_field`: same constraint handling as the integer field. -/
def create_float_field (field_info : FieldInfo) (is_required : Bool)
    (dflt : Option Value) : DjangoField :=
  let bounds := field_info.metadata.foldl numeric_constraint_step (none, none)
  DjangoField.floatField is_required dflt bounds.1 bounds.2
    (field_info.description.getD "")

/-- The reassignment of `field_type` at the top of `_map_type_to_field`:
unwrap an `Annotated` layer to its first argument, and resolve a union (bare
or under the annotation) through `union_to_field_type`. -/
def resolve_annotation : Option Ty → Option Ty
  | some (Ty.annotated actual) =>
    match actual with
    | Ty.union args => union_to_field_type (some (Ty.union args))
    | _ => some actual
  | some (Ty.union args) => union_to_field_type (some (Ty.union args))
  | field_type => field_type

/-- `_map_type_to_field`: unwrap an `Annotated` layer, resolve a union through
`union_to_field_type`, then dispatch on the primitive type; anything left over
(including an unresolved union and an absent annotation) falls back to a
CharField after logging a warning. -/
def map_type_to_field (field_type : Option Ty) (field_info : FieldInfo)
    (is_required : Bool) (dflt : Option Value) : DjangoField :=
  match resolve_annotation field_type with
  | some (Ty.atom Atom.str) => create_string_field field_info is_required dflt
  | some (Ty.atom Atom.int) => create_integer_field field_info is_required dflt
  | some (Ty.atom Atom.float) => create_float_field field_info is_required dflt
  | some (Ty.atom Atom.bool) =>
    DjangoField.booleanField is_required dflt (field_info.description.getD "")
  | some (Ty.atom Atom.date) =>
    DjangoField.dateField is_required dflt (field_info.description.getD "")
  | some (Ty.atom Atom.datetime) =>
    DjangoField.dateTimeField is_required dflt (field_info.description.getD "")
  | _ => create_string_field field_info is_required dflt

/-- The optional unwrap in `_convert_pydantic_field`: a two-member union
containing the absence type is replaced by its other member and the required
flag is forced to false; every other annotation passes through unchanged. -/
def unwrap_optional (field_type : Option Ty) (is_required : Bool) :
    Option Ty × Bool :=
  match field_type with
  | some (Ty.union [a, b]) =>
    if a = Atom.none_ ∨ b = Atom.none_ then
      (some (Ty.atom (if b = Atom.none_ then a else b)), false)
    else
      (field_type, is_required)
  | _ => (field_type, is_required)

/-- `_convert_pydantic_field`: compute the default, unwrap a two-member union
with the absence type (forcing required to false), build a ChoiceField for a
literal type (falling through to the dispatch when the construction raises,
selected here by `choice_raises`), otherwise dispatch on the type. -/
def convert_pydantic_field (choice_raises : Bool) (_field_name : String)
    (field_info : FieldInfo) : Option DjangoField :=
  let dflt := if field_info.required then none else field_info.default
  match unwrap_optional field_info.ann field_info.required with
  | (some (Ty.atom (Atom.literal values)), is_required) =>
    if choice_raises then
      some (map_type_to_field (some (Ty.atom (Atom.literal values)))
        field_info is_required dflt)
    else
      some (DjangoField.choiceField (values.map (fun choice => (choice, choice)))
        is_required dflt (field_info.description.getD ""))
  | (field_type, is_required) =>
    some (map_type_to_field field_type field_info is_required dflt)

/-- Python dict assignment `d[k] = v`: replace in place when the key is
present, append at the end otherwise. -/
def dictSet (fields : List (String × DjangoField)) (k : String) (v : DjangoField) :
    List (String × DjangoField) :=
  match fields with
  | [] => [(k, v)]
  | (k', v') :: rest => if k' = k then (k, v) :: rest else (k', v') :: dictSet rest k v

/-- Python dict lookup `d[k]`. -/
def dictGet (fields : List (String × DjangoField)) (k : String) : Option DjangoField :=
  (fields.find? (fun p => p.1 == k)).map Prod.snd

/-- Number of entries stored under a name. -/
def countKey (fields : List (String × DjangoField)) (k : String) : Nat :=
  (fields.filter (fun p => p.1 == k)).length

/-- A pydantic model class: its ordered `model_fields` mapping. -/
structure PydanticModel where
  model_fields : List (String × FieldInfo)
  deriving DecidableEq

/-- The `Meta.model` attribute: a `BaseModel` subclass or some other object. -/
inductive ModelAttr : Type where
  | baseModel (model : PydanticModel)
  | notBaseModel (name : String)
  deriving DecidableEq

/-- The inner `Meta` class with its optional `model` attribute. -/
structure MetaClass where
  model : Option ModelAttr
  deriving DecidableEq

/-- The statically declared shape of a `PydanticModelForm` subclass: the
optional `Meta` class, and the declared form fields that Django collects into
`base_fields` and copies into `self.fields` before the translator runs. -/
structure FormClass where
  meta : Option MetaClass
  base_fields : List (String × DjangoField)
  deriving DecidableEq

/-- `_get_pydantic_model`: raises `ValueError` when `Meta` is missing, when
`Meta.model` is missing, and when `Meta.model` is not a `BaseModel` subclass. -/
def get_pydantic_model (cls : FormClass) : Except String PydanticModel :=
  match cls.meta with
  | none => Except.error "missing Meta class"
  | some meta =>
    match meta.model with
    | none => Except.error "Meta class is missing model attribute"
    | some (ModelAttr.notBaseModel _) =>
      Except.error "Meta.model is not a subclass of BaseModel"
    | some (ModelAttr.baseModel model) => Except.ok model

/-- `_add_pydantic_fields`: for every model field, convert it and store the
result in `self.fields` under the field name when it is not `None`. -/
def add_pydantic_fields (choice_raises : String → Bool) (model : PydanticModel)
    (fields : List (String × DjangoField)) : List (String × DjangoField) :=
  model.model_fields.foldl
    (fun fs p =>
      match convert_pydantic_field (choice_raises p.1) p.1 p.2 with
      | some django_field => dictSet fs p.1 django_field
      | none => fs)
    fields

/-- A constructed form: the resolved model and the field mapping. -/
structure Form where
  pydantic_model : PydanticModel
  fields : List (String × DjangoField)
  deriving DecidableEq

/-- `PydanticModelForm.__init__`: resolve the model first (configuration
errors are raised here and abort construction), let `forms.Form.__init__`
copy `base_fields` into `self.fields`, then add the translated fields. -/
def form_init (choice_raises : String → Bool) (cls : FormClass) :
    Except String Form :=
  match get_pydantic_model cls with
  | Except.error e => Except.error e
  | Except.ok model =>
    Except.ok
      { pydantic_model := model
        fields := add_pydantic_fields choice_raises model cls.base_fields }

/-- One component of a pydantic error `loc` path: a string key or an index. -/
inductive LocItem : Type where
  | s (v : String)
  | i (v : Int)
  deriving DecidableEq

/-- `str(x)` on a `loc` component. -/
def LocItem.toStr : LocItem → String
  | .s v => v
  | .i v => toString v

/-- One structured error reported by a pydantic `ValidationError`. -/
structure PydanticError where
  loc : List LocItem
  msg : String
  deriving DecidableEq

/-- Result of `model_validate`: a validated instance or a `ValidationError`
carrying an ordered error list. -/
inductive ValidationResult : Type where
  | ok
  | err (errors : List PydanticError)
  deriving DecidableEq

/-- The error state of a Django form: per-field error lists plus the
non-field error list. -/
structure FormErrors where
  field_errors : List (String × List String)
  non_field_errors : List String
  deriving DecidableEq

/-- Append a message to the error list stored under a field name, creating
the entry when absent. -/
def appendError (l : List (String × List String)) (k : String) (msg : String) :
    List (String × List String) :=
  match l with
  | [] => [(k, [msg])]
  | (k', msgs) :: rest =>
    if k' = k then (k', msgs ++ [msg]) :: rest
    else (k', msgs) :: appendError rest k msg

/-- Django `add_error`: a `none` target appends to the non-field list, a named
target appends to that fields error list. -/
def add_error (st : FormErrors) (field : Option String) (msg : String) :
    FormErrors :=
  match field with
  | some f => { st with field_errors := appendError st.field_errors f msg }
  | none => { st with non_field_errors := st.non_field_errors ++ [msg] }

/-- Membership test `field_name in self.fields`. -/
def hasField (fields : List (String × DjangoField)) (k : String) : Bool :=
  fields.any (fun p => p.1 == k)

/-- The dotted field name joined from an error path. -/
def locName (e : PydanticError) : String :=
  String.intercalate "." (e.loc.map LocItem.toStr)

/-- `PydanticModelForm.clean`: validate against the model; on a
`ValidationError`, walk the reported errors in order, join each `loc` path
with a dot, and attach the message to the matching field or to the non-field
list. The exception never escapes; the errors become form state. -/
def clean (fields : List (String × DjangoField)) (result : ValidationResult) :
    FormErrors :=
  match result with
  | ValidationResult.ok => ⟨[], []⟩
  | ValidationResult.err errors =>
    errors.foldl
      (fun st error =>
        let field_name := locName error
        if hasField fields field_name then add_error st (some field_name) error.msg
        else add_error st none error.msg)
      ⟨[], []⟩

/-- The error list the form reports for a field name. -/
def errorList (st : FormErrors) (k : String) : List String :=
  ((st.field_errors.find? (fun p => p.1 == k)).map Prod.snd).getD []

/-- The descriptor kind the priority list assigns to each priority type. -/
def priorityKind : Atom → FieldKind
  | Atom.str => FieldKind.char
  | Atom.float => FieldKind.float
  | Atom.int => FieldKind.integer
  | Atom.date => FieldKind.date
  | Atom.datetime => FieldKind.datetime
  | _ => FieldKind.char

/-- The priority list of `union_to_field_type`. -/
def prioList : List Atom :=
  [Atom.str, Atom.float, Atom.int, Atom.date, Atom.datetime]

/-- A plain required string field schema entry. -/
def strFieldInfo : FieldInfo :=
  { ann := some (Ty.atom Atom.str), required := true, default := none,
    description := none, metadata := [] }

/-- The form class of the override scenario from the test suite: a declared
ChoiceField named `name` next to a model field of the same name. -/
def overrideFormClass : FormClass :=
  { meta := some { model := some (ModelAttr.baseModel
      { model_fields := [("name", strFieldInfo)] }) }
    base_fields :=
      [("name", DjangoField.choiceField [("mark", "Mark"), ("lindy", "Lindy")]
        true none "")] }

/-- A required three-member union entry `int | str | None`. -/
def triUnionFieldInfo : FieldInfo :=
  { ann := some (Ty.union [Atom.int, Atom.str, Atom.none_]), required := true,
    default := none, description := none, metadata := [] }

/-- A required two-member union entry `str | None`. -/
def optionalStrFieldInfo : FieldInfo :=
  { ann := some (Ty.union [Atom.str, Atom.none_]), required := true,
    default := none, description := none, metadata := [] }

/-- A union entry `int | str`, the priority scenario from the spec. -/
def intStrFieldInfo : FieldInfo :=
  { ann := some (Ty.union [Atom.int, Atom.str]), required := true,
    default := none, description := none, metadata := [] }

/-- An integer entry carrying a single greater-than constraint. -/
def gtFieldInfo : FieldInfo :=
  { ann := some (Ty.atom Atom.int), required := true, default := none,
    description := none, metadata := [Constraint.gt 5] }

/-- An entry carrying two max-length and two greater-or-equal constraints. -/
def doubledFieldInfo : FieldInfo :=
  { ann := some (Ty.atom Atom.str), required := true, default := none,
    description := none,
    metadata := [Constraint.maxLen 10, Constraint.ge 1, Constraint.maxLen 7,
      Constraint.ge 3] }

/-- A literal entry `Literal["Foo", "Bar"]` with a default. -/
def literalFieldInfo : FieldInfo :=
  { ann := some (Ty.atom (Atom.literal ["Foo", "Bar"])), required := false,
    default := some (Value.str "Foo"), description := none, metadata := [] }

/-- A one-field model used by concrete witnesses. -/
def witnessModel : PydanticModel :=
  { model_fields := [("x", strFieldInfo)] }

/-- Errors reported against a known field and an unknown path. -/
def witnessErrors : List PydanticError :=
  [ { loc := [LocItem.s "a"], msg := "m1" },
    { loc := [LocItem.s "b", LocItem.i 0], msg := "m2" },
    { loc := [LocItem.s "a"], msg := "m3" } ]

/-- A single known field mapping for the validation bridge witnesses. -/
def witnessFields : List (String × DjangoField) :=
  [("a", DjangoField.charField true none 0 2000 "")]

/-- Every field constructor receives the required flag unchanged. -/
theorem requiredFlag_create_string (fi : FieldInfo) (r : Bool) (d : Option Value) :
    (create_string_field fi r d).requiredFlag = r := rfl

theorem requiredFlag_create_integer (fi : FieldInfo) (r : Bool) (d : Option Value) :
    (create_integer_field fi r d).requiredFlag = r := rfl

theorem requiredFlag_create_float (fi : FieldInfo) (r : Bool) (d : Option Value) :
    (create_float_field fi r d).requiredFlag = r := rfl

/-- The dispatch passes the required flag through on every branch. -/
theorem requiredFlag_map (ft : Option Ty) (fi : FieldInfo) (r : Bool)
    (d : Option Value) : (map_type_to_field ft fi r d).requiredFlag = r := by
  unfold map_type_to_field
  split <;> rfl

/-- The required flag of the converted field is the flag computed by the
optional unwrap. -/
theorem convert_requiredFlag (cf : Bool) (name : String) (fi : FieldInfo) :
    (convert_pydantic_field cf name fi).map DjangoField.requiredFlag =
      some (unwrap_optional fi.ann fi.required).2 := by
  simp only [convert_pydantic_field]
  split
  · rename_i values r heq
    rw [heq]
    split
    · simp [requiredFlag_map]
    · rfl
  · rename_i ft r x heq
    rw [heq]
    simp [requiredFlag_map]

/-- The optional unwrap fires on a two-member union containing the absence
type. -/
theorem unwrap_optional_pair_none (a b : Atom) (r : Bool)
    (h : a = Atom.none_ ∨ b = Atom.none_) :
    unwrap_optional (some (Ty.union [a, b])) r =
      (some (Ty.atom (if b = Atom.none_ then a else b)), false) := by
  simp only [unwrap_optional]
  rw [if_pos h]

/-- The optional unwrap leaves every other annotation unchanged. -/
theorem unwrap_optional_not_two (ft : Option Ty) (r : Bool)
    (h : ∀ a b, ft ≠ some (Ty.union [a, b])) :
    unwrap_optional ft r = (ft, r) := by
  unfold unwrap_optional
  split
  next a b => exact absurd rfl (h a b)
  next => rfl

/-- C2: for every schema entry whose declared type is a two-member union in
which exactly one member is the absence type, the resulting descriptor has
required = false, regardless of the entry's own required flag. -/
theorem c2_optional_unwrap_not_required (cf : Bool) (name : String)
    (fi : FieldInfo) (a b : Atom) (hann : fi.ann = some (Ty.union [a, b]))
    (hone : (a = Atom.none_ ∧ b ≠ Atom.none_) ∨ (a ≠ Atom.none_ ∧ b = Atom.none_)) :
    (convert_pydantic_field cf name fi).map DjangoField.requiredFlag =
      some false := by
  rw [convert_requiredFlag, hann,
    unwrap_optional_pair_none a b fi.required (by tauto)]

/-- C2 witness: the entry `str | None` with required = true translates to a
non-required descriptor. -/
theorem c2_witness :
    (convert_pydantic_field false "optional_field" optionalStrFieldInfo).map
      DjangoField.requiredFlag = some false :=
  c2_optional_unwrap_not_required false "optional_field" optionalStrFieldInfo
    Atom.str Atom.none_ rfl (Or.inr ⟨by decide, rfl⟩)

/-- C3 counterexample: the required entry `int | str | None` contains the
absence type, yet its descriptor keeps required = true, so the claim that any
union containing the absence type forces required = false is false here. -/
theorem c3_counterexample :
    triUnionFieldInfo.ann = some (Ty.union [Atom.int, Atom.str, Atom.none_]) ∧
    Atom.none_ ∈ [Atom.int, Atom.str, Atom.none_] ∧
    triUnionFieldInfo.required = true ∧
    (convert_pydantic_field false "field" triUnionFieldInfo).map
      DjangoField.requiredFlag ≠ some false := by decide

/-- C3 amended: for a union containing the absence type, the descriptor has
required = false exactly when the union has two members; a larger union keeps
the entry's own required flag (the absence member only being filtered out of
the kind selection). -/
theorem c3_union_none_required_amended (cf : Bool) (name : String)
    (fi : FieldInfo) (args : List Atom) (hann : fi.ann = some (Ty.union args))
    (hnone : Atom.none_ ∈ args) :
    (convert_pydantic_field cf name fi).map DjangoField.requiredFlag =
      some (if args.length = 2 then false else fi.required) := by
  rw [convert_requiredFlag, hann]
  rcases args with _ | ⟨a, _ | ⟨b, _ | ⟨c, rest⟩⟩⟩
  · simp at hnone
  · rw [unwrap_optional_not_two _ _ (by simp)]
    simp
  · have h' : a = Atom.none_ ∨ b = Atom.none_ := by
      rcases (by simpa using hnone : Atom.none_ = a ∨ Atom.none_ = b) with h | h
      · exact Or.inl h.symm
      · exact Or.inr h.symm
    rw [unwrap_optional_pair_none a b fi.required h']
    simp
  · rw [unwrap_optional_not_two _ _ (by simp)]
    simp

/-- C3 amended witness: the three-member union keeps required = true. -/
theorem c3_amended_witness :
    (convert_pydantic_field false "field" triUnionFieldInfo).map
      DjangoField.requiredFlag = some (if ([Atom.int, Atom.str,
        Atom.none_].length = 2 : Prop) then false else triUnionFieldInfo.required) :=
  c3_union_none_required_amended false "field" triUnionFieldInfo
    [Atom.int, Atom.str, Atom.none_] rfl (by decide)

/-- C1: the translator overwrites a caller-declared descriptor. In the
override scenario of the test suite, construction stores the translated
CharField under `name` in place of the declared ChoiceField; only the count
part of the claim survives. -/
theorem c1_override_overwritten :
    countKey overrideFormClass.base_fields "name" = 1 ∧
    dictGet overrideFormClass.base_fields "name" =
      some (DjangoField.choiceField [("mark", "Mark"), ("lindy", "Lindy")]
        true none "") ∧
    (form_init (fun _ => false) overrideFormClass).toOption.map
      (fun f => dictGet f.fields "name") =
      some (some (DjangoField.charField true none 0 2000 "")) ∧
    (form_init (fun _ => false) overrideFormClass).toOption.map
      (fun f => countKey f.fields "name") = some 1 ∧
    DjangoField.charField true none 0 2000 "" ≠
      DjangoField.choiceField [("mark", "Mark"), ("lindy", "Lindy")] true
        none "" := by decide

/-- C9: construction fails with a hard error exactly when the configuration
is broken: the Meta class is missing, the model attribute is missing, or the
declared model is not a BaseModel subclass. -/
theorem c9_config_errors_fatal (cf : String → Bool) (cls : FormClass) :
    (∃ e, form_init cf cls = Except.error e) ↔
      (cls.meta = none ∨
       (∃ m, cls.meta = some m ∧ m.model = none) ∨
       (∃ m nm, cls.meta = some m ∧
         m.model = some (ModelAttr.notBaseModel nm))) := by
  rcases cls with ⟨meta, base⟩
  rcases meta with _ | ⟨model⟩
  · simp [form_init, get_pydantic_model]
  · rcases model with _ | attr
    · simp [form_init, get_pydantic_model]
    · rcases attr with ⟨m⟩ | ⟨nm⟩
      · simp [form_init, get_pydantic_model]
      · simp [form_init, get_pydantic_model]

/-- C9 witness: a form class without a Meta class fails at construction. -/
theorem c9_witness :
    ∃ e, form_init (fun _ => false)
      { meta := none, base_fields := [] } = Except.error e :=
  (c9_config_errors_fatal (fun _ => false)
    { meta := none, base_fields := [] }).mpr (Or.inl rfl)

/-- A constraint list without a MaxLen leaves the max length untouched. -/
theorem string_fold_fst (ms : List Constraint) (acc : Int × Int)
    (h : ∀ w, Constraint.maxLen w ∉ ms) :
    (ms.foldl string_constraint_step acc).1 = acc.1 := by
  induction ms generalizing acc with
  | nil => rfl
  | cons c rest ih =>
    rw [List.foldl_cons, ih _ (fun w hw => h w (List.mem_cons_of_mem _ hw))]
    cases c
    case maxLen v => exact absurd (List.mem_cons_self _ _) (h v)
    all_goals rfl

/-- A constraint list without Ge and Gt leaves the min value untouched. -/
theorem numeric_fold_fst (ms : List Constraint) (acc : Option Rat × Option Rat)
    (hge : ∀ w, Constraint.ge w ∉ ms) (hgt : ∀ w, Constraint.gt w ∉ ms) :
    (ms.foldl numeric_constraint_step acc).1 = acc.1 := by
  induction ms generalizing acc with
  | nil => rfl
  | cons c rest ih =>
    rw [List.foldl_cons,
      ih _ (fun w hw => hge w (List.mem_cons_of_mem _ hw))
        (fun w hw => hgt w (List.mem_cons_of_mem _ hw))]
    cases c
    case ge v => exact absurd (List.mem_cons_self _ _) (hge v)
    case gt v => exact absurd (List.mem_cons_self _ _) (hgt v)
    all_goals rfl

/-- A constraint list without Le and Lt leaves the max value untouched. -/
theorem numeric_fold_snd (ms : List Constraint) (acc : Option Rat × Option Rat)
    (hle : ∀ w, Constraint.le w ∉ ms) (hlt : ∀ w, Constraint.lt w ∉ ms) :
    (ms.foldl numeric_constraint_step acc).2 = acc.2 := by
  induction ms generalizing acc with
  | nil => rfl
  | cons c rest ih =>
    rw [List.foldl_cons,
      ih _ (fun w hw => hle w (List.mem_cons_of_mem _ hw))
        (fun w hw => hlt w (List.mem_cons_of_mem _ hw))]
    cases c
    case le v => exact absurd (List.mem_cons_self _ _) (hle v)
    case lt v => exact absurd (List.mem_cons_self _ _) (hlt v)
    all_goals rfl

/-- C5: on both the integer and the float descriptor, a greater-than
constraint yields min bound value + 1, a less-than constraint yields max
bound value - 1, and the or-equal constraints map directly, whenever no later
constraint touches the same bound. -/
theorem c5_bound_tightening (fi : FieldInfo) (r : Bool) (d : Option Value)
    (ms1 ms2 : List Constraint) (n : Rat) :
    ((fi.metadata = ms1 ++ [Constraint.gt n] ++ ms2 →
      (∀ w, Constraint.ge w ∉ ms2) → (∀ w, Constraint.gt w ∉ ms2) →
      (create_integer_field fi r d).minValue = some (n + 1) ∧
      (create_float_field fi r d).minValue = some (n + 1)) ∧
     (fi.metadata = ms1 ++ [Constraint.ge n] ++ ms2 →
      (∀ w, Constraint.ge w ∉ ms2) → (∀ w, Constraint.gt w ∉ ms2) →
      (create_integer_field fi r d).minValue = some n ∧
      (create_float_field fi r d).minValue = some n) ∧
     (fi.metadata = ms1 ++ [Constraint.lt n] ++ ms2 →
      (∀ w, Constraint.le w ∉ ms2) → (∀ w, Constraint.lt w ∉ ms2) →
      (create_integer_field fi r d).maxValue = some (n - 1) ∧
      (create_float_field fi r d).maxValue = some (n - 1)) ∧
     (fi.metadata = ms1 ++ [Constraint.le n] ++ ms2 →
      (∀ w, Constraint.le w ∉ ms2) → (∀ w, Constraint.lt w ∉ ms2) →
      (create_integer_field fi r d).maxValue = some n ∧
      (create_float_field fi r d).maxValue = some n)) := by
  refine ⟨fun h h1 h2 => ?_, fun h h1 h2 => ?_, fun h h1 h2 => ?_,
    fun h h1 h2 => ?_⟩ <;>
  · constructor <;>
    · simp only [create_integer_field, create_float_field, h,
        List.foldl_append, List.foldl_cons, List.foldl_nil,
        DjangoField.minValue, DjangoField.maxValue]
      first
        | rw [numeric_fold_fst ms2 _ h1 h2]
        | rw [numeric_fold_snd ms2 _ h1 h2]
      rfl

/-- C5 witness: a single Gt 5 constraint gives min bound 5 + 1. -/
theorem c5_witness :
    (create_integer_field gtFieldInfo true none).minValue = some (5 + 1) ∧
    (create_float_field gtFieldInfo true none).minValue = some (5 + 1) :=
  (c5_bound_tightening gtFieldInfo true none [] [] 5).1 rfl
    (by simp) (by simp)

/-- C10: when the metadata holds two constraints of the same kind, the bound
stored on the descriptor comes from the later one; the earlier value is
silently overwritten. Shown for two MaxLen constraints on the string field
and two Ge constraints on the integer and float fields. -/
theorem c10_last_constraint_wins (fi : FieldInfo) (r : Bool) (d : Option Value)
    (ms1 ms2 ms3 : List Constraint) :
    (∀ v1 v2 : Int,
      fi.metadata =
        ms1 ++ [Constraint.maxLen v1] ++ ms2 ++ [Constraint.maxLen v2] ++ ms3 →
      (∀ w, Constraint.maxLen w ∉ ms3) →
      (create_string_field fi r d).maxLengthValue = some v2) ∧
    (∀ v1 v2 : Rat,
      fi.metadata =
        ms1 ++ [Constraint.ge v1] ++ ms2 ++ [Constraint.ge v2] ++ ms3 →
      (∀ w, Constraint.ge w ∉ ms3) → (∀ w, Constraint.gt w ∉ ms3) →
      (create_integer_field fi r d).minValue = some v2 ∧
      (create_float_field fi r d).minValue = some v2) := by
  constructor
  · intro v1 v2 h h3
    simp only [create_string_field, h, List.foldl_append, List.foldl_cons,
      List.foldl_nil, DjangoField.maxLengthValue]
    rw [string_fold_fst ms3 _ h3]
    rfl
  · intro v1 v2 h h3 h4
    constructor <;>
    · simp only [create_integer_field, create_float_field, h,
        List.foldl_append, List.foldl_cons, List.foldl_nil,
        DjangoField.minValue]
      rw [numeric_fold_fst ms3 _ h3 h4]
      rfl

/-- C10 witness: with metadata MaxLen 10, Ge 1, MaxLen 7, Ge 3 the later
MaxLen and the later Ge win. -/
theorem c10_witness :
    (create_string_field doubledFieldInfo true none).maxLengthValue = some 7 ∧
    (create_integer_field doubledFieldInfo true none).minValue = some 3 := by
  constructor
  · exact (c10_last_constraint_wins doubledFieldInfo true none
      [] [Constraint.ge 1] [Constraint.ge 3]).1 10 7 rfl (by simp)
  · exact ((c10_last_constraint_wins doubledFieldInfo true none
      [Constraint.maxLen 10] [Constraint.maxLen 7] []).2 1 3 rfl
      (by simp) (by simp)).1

/-- C6: a literal entry becomes a Choice descriptor pairing every literal
value with itself in declaration order, passing the required flag and the
default through; when the construction raises, the translation falls through
to the ordinary type dispatch instead of aborting. -/
theorem c6_literal_choices (name : String) (fi : FieldInfo) (vs : List String)
    (hann : fi.ann = some (Ty.atom (Atom.literal vs))) :
    (convert_pydantic_field false name fi =
      some (DjangoField.choiceField (vs.map (fun c => (c, c))) fi.required
        (if fi.required then none else fi.default) (fi.description.getD ""))) ∧
    (convert_pydantic_field true name fi =
      some (map_type_to_field (some (Ty.atom (Atom.literal vs))) fi fi.required
        (if fi.required then none else fi.default))) := by
  have hunwrap : unwrap_optional fi.ann fi.required =
      (some (Ty.atom (Atom.literal vs)), fi.required) := by
    rw [hann, unwrap_optional_not_two _ _ (by simp)]
  constructor <;> simp [convert_pydantic_field, hunwrap]

/-- C6 witness: the literal entry with values Foo and Bar gives the choice
set pairing each with itself, and falls through to a CharField when the
ChoiceField construction raises. -/
theorem c6_witness :
    (convert_pydantic_field false "field" literalFieldInfo =
      some (DjangoField.choiceField [("Foo", "Foo"), ("Bar", "Bar")] false
        (some (Value.str "Foo")) "")) ∧
    (convert_pydantic_field true "field" literalFieldInfo =
      some (DjangoField.charField false (some (Value.str "Foo")) 0 2000 "")) :=
  c6_literal_choices "field" literalFieldInfo ["Foo", "Bar"] rfl

/-- The selected union member is on the priority list, among the union
members, and different from the absence type. -/
theorem union_pick_mem (args : List Atom) (t : Atom)
    (h : union_to_field_type (some (Ty.union args)) = some (Ty.atom t)) :
    t ∈ prioList ∧ t ∈ args ∧ t ≠ Atom.none_ := by
  simp only [union_to_field_type, Option.map_eq_some'] at h
  obtain ⟨a, hfind, hat⟩ := h
  have hta : a = t := by injection hat
  subst hta
  have hmem : a ∈ prioList := List.mem_of_find?_eq_some hfind
  have hp : (fun t => (List.filter (fun arg => decide (arg ≠ Atom.none_))
      args).contains t) a = true := List.find?_some hfind
  have hcont : a ∈ List.filter (fun arg => decide (arg ≠ Atom.none_)) args :=
    List.mem_of_elem_eq_true hp
  rw [List.mem_filter] at hcont
  simp only [decide_eq_true_eq] at hcont
  exact ⟨hmem, hcont.1, hcont.2⟩

/-- Dispatch of a priority member gives its priority kind. -/
theorem map_atom_kind (t : Atom) (ht : t ∈ prioList) (fi : FieldInfo)
    (r : Bool) (d : Option Value) :
    (map_type_to_field (some (Ty.atom t)) fi r d).kind = priorityKind t := by
  fin_cases ht <;> rfl

/-- Dispatch of a bare union resolves to the priority kind of the selected
member. -/
theorem map_union_kind (args : List Atom) (t : Atom) (fi : FieldInfo)
    (r : Bool) (d : Option Value)
    (h : union_to_field_type (some (Ty.union args)) = some (Ty.atom t)) :
    (map_type_to_field (some (Ty.union args)) fi r d).kind = priorityKind t := by
  have ht := (union_pick_mem args t h).1
  simp only [map_type_to_field, resolve_annotation, h]
  fin_cases ht <;> rfl

/-- Dispatch of an annotated union resolves to the priority kind of the
selected member. -/
theorem map_annotated_union_kind (args : List Atom) (t : Atom) (fi : FieldInfo)
    (r : Bool) (d : Option Value)
    (h : union_to_field_type (some (Ty.union args)) = some (Ty.atom t)) :
    (map_type_to_field (some (Ty.annotated (Ty.union args))) fi r d).kind =
      priorityKind t := by
  have ht := (union_pick_mem args t h).1
  simp only [map_type_to_field, resolve_annotation, h]
  fin_cases ht <;> rfl

/-- When the unwrapped type is not a literal, conversion is the dispatch. -/
theorem convert_eq_map (cf : Bool) (name : String) (fi : FieldInfo)
    (h : ∀ vs, (unwrap_optional fi.ann fi.required).1 ≠
      some (Ty.atom (Atom.literal vs))) :
    convert_pydantic_field cf name fi =
      some (map_type_to_field (unwrap_optional fi.ann fi.required).1 fi
        (unwrap_optional fi.ann fi.required).2
        (if fi.required then none else fi.default)) := by
  simp only [convert_pydantic_field]

/-- On a union with a priority pick, the optional unwrap either exposes the
selected member directly or leaves the union in place. -/
theorem unwrap_union_cases (args : List Atom) (r : Bool) (t : Atom)
    (hpick : union_to_field_type (some (Ty.union args)) = some (Ty.atom t)) :
    (unwrap_optional (some (Ty.union args)) r).1 = some (Ty.atom t) ∨
    (unwrap_optional (some (Ty.union args)) r).1 = some (Ty.union args) := by
  obtain ⟨hprio, hmem, hnn⟩ := union_pick_mem args t hpick
  rcases args with _ | ⟨a, _ | ⟨b, _ | ⟨c, rest⟩⟩⟩
  · right; rw [unwrap_optional_not_two _ _ (by simp)]
  · right; rw [unwrap_optional_not_two _ _ (by simp)]
  · by_cases hn : a = Atom.none_ ∨ b = Atom.none_
    · left
      rw [unwrap_optional_pair_none a b r hn]
      by_cases hb : b = Atom.none_
      · rw [if_pos hb]
        rcases (by simpa using hmem : t = a ∨ t = b) with h | h
        · rw [h]
        · exact absurd (h.trans hb) hnn
      · have ha : a = Atom.none_ := hn.resolve_right hb
        rw [if_neg hb]
        rcases (by simpa using hmem : t = a ∨ t = b) with h | h
        · exact absurd (h.trans ha) hnn
        · rw [h]
    · right
      simp only [unwrap_optional]
      rw [if_neg hn]
  · right; rw [unwrap_optional_not_two _ _ (by simp)]

/-- C4: for a schema entry whose declared type is a union, bare or under an
annotation, whenever a member matches the priority list text, float, integer,
date, datetime, the descriptor kind is the kind of the first priority match
(after filtering out the absence type); in particular int | str gives Text. -/
theorem c4_union_priority (cf : Bool) (name : String) (fi : FieldInfo)
    (args : List Atom) (t : Atom)
    (hann : fi.ann = some (Ty.union args) ∨
      fi.ann = some (Ty.annotated (Ty.union args)))
    (hpick : union_to_field_type (some (Ty.union args)) = some (Ty.atom t)) :
    (convert_pydantic_field cf name fi).map DjangoField.kind =
      some (priorityKind t) := by
  have hprio := (union_pick_mem args t hpick).1
  rcases hann with hann | hann
  · rcases unwrap_union_cases args fi.required t hpick with hu | hu
    · rw [convert_eq_map cf name fi (by
        intro vs
        rw [hann, hu]
        fin_cases hprio <;> simp)]
      rw [hann, hu, Option.map_some']
      rw [map_atom_kind t hprio]
    · rw [convert_eq_map cf name fi (by
        intro vs
        rw [hann, hu]
        simp)]
      rw [hann, hu, Option.map_some']
      rw [map_union_kind args t fi _ _ hpick]
  · have hu : unwrap_optional fi.ann fi.required = (fi.ann, fi.required) := by
      rw [hann]; exact unwrap_optional_not_two _ _ (by simp)
    rw [convert_eq_map cf name fi (by
      intro vs
      rw [hu, hann]
      simp)]
    rw [hu, hann, Option.map_some']
    rw [map_annotated_union_kind args t fi _ _ hpick]

/-- C4 witness: the entry int | str translates to a Text descriptor. -/
theorem c4_witness :
    (convert_pydantic_field false "field" intStrFieldInfo).map
      DjangoField.kind = some FieldKind.char :=
  c4_union_priority false "field" intStrFieldInfo [Atom.int, Atom.str]
    Atom.str (Or.inl rfl) (by decide)

/-- Conversion always returns a field: every branch of the translator ends in
a constructor, with the unsupported cases degrading to a CharField. -/
theorem convert_isSome (cf : Bool) (name : String) (fi : FieldInfo) :
    (convert_pydantic_field cf name fi).isSome = true := by
  simp only [convert_pydantic_field]
  split
  · split <;> rfl
  · rfl

theorem countKey_cons (p : String × DjangoField)
    (fs : List (String × DjangoField)) (k : String) :
    countKey (p :: fs) k = (if p.1 = k then 1 else 0) + countKey fs k := by
  by_cases h : p.1 = k <;> simp [countKey, List.filter_cons, h, Nat.add_comm]

theorem countKey_not_mem (fs : List (String × DjangoField)) (k : String)
    (h : k ∉ fs.map Prod.fst) : countKey fs k = 0 := by
  induction fs with
  | nil => rfl
  | cons p rest ih =>
    rw [countKey_cons, ih (fun hm => h (by simp [hm]))]
    have hp : p.1 ≠ k := fun he => h (by simp [← he])
    rw [if_neg hp]

theorem keys_dictSet (fs : List (String × DjangoField)) (k : String)
    (v : DjangoField) :
    (dictSet fs k v).map Prod.fst =
      if k ∈ fs.map Prod.fst then fs.map Prod.fst
      else fs.map Prod.fst ++ [k] := by
  induction fs with
  | nil => simp [dictSet]
  | cons p rest ih =>
    obtain ⟨a, b⟩ := p
    simp only [dictSet]
    by_cases hk : a = k
    · subst hk
      rw [if_pos rfl]
      simp
    · rw [if_neg hk]
      simp only [List.map_cons, ih]
      by_cases hmem : k ∈ rest.map Prod.fst
      · rw [if_pos hmem, if_pos (by simp [hmem])]
      · rw [if_neg hmem, if_neg (by simp [hmem, Ne.symm hk]),
          List.cons_append]

theorem nodup_keys_dictSet (fs : List (String × DjangoField)) (k : String)
    (v : DjangoField) (h : (fs.map Prod.fst).Nodup) :
    ((dictSet fs k v).map Prod.fst).Nodup := by
  rw [keys_dictSet]
  split
  · exact h
  · rename_i hmem
    simp [List.nodup_append, h, hmem]

theorem countKey_dictSet_self (fs : List (String × DjangoField)) (k : String)
    (v : DjangoField) (h : (fs.map Prod.fst).Nodup) :
    countKey (dictSet fs k v) k = 1 := by
  induction fs with
  | nil => simp [dictSet, countKey]
  | cons p rest ih =>
    obtain ⟨a, b⟩ := p
    rw [List.map_cons, List.nodup_cons] at h
    simp only [dictSet]
    by_cases hk : a = k
    · subst hk
      rw [if_pos rfl, countKey_cons, if_pos rfl,
        countKey_not_mem rest a h.1]
    · rw [if_neg hk, countKey_cons, if_neg hk, ih h.2]

theorem countKey_dictSet_other (fs : List (String × DjangoField))
    (k : String) (v : DjangoField) (g : String) (hne : g ≠ k) :
    countKey (dictSet fs k v) g = countKey fs g := by
  induction fs with
  | nil => simp [dictSet, countKey, Ne.symm hne]
  | cons p rest ih =>
    obtain ⟨a, b⟩ := p
    simp only [dictSet]
    by_cases hk : a = k
    · subst hk
      rw [if_pos rfl, countKey_cons, countKey_cons]
    · rw [if_neg hk, countKey_cons, countKey_cons, ih]

theorem countKey_add_not_mem (cf : String → Bool)
    (mfs : List (String × FieldInfo)) (base : List (String × DjangoField))
    (name : String) (h : name ∉ mfs.map Prod.fst) :
    countKey (add_pydantic_fields cf { model_fields := mfs } base) name =
      countKey base name := by
  induction mfs generalizing base with
  | nil => rfl
  | cons p rest ih =>
    obtain ⟨n, fi⟩ := p
    have hn : n ≠ name := fun he => h (by simp [he])
    have h' : name ∉ rest.map Prod.fst := fun hm => h (by simp [hm])
    rw [show add_pydantic_fields cf { model_fields := (n, fi) :: rest } base =
      add_pydantic_fields cf { model_fields := rest }
        (match convert_pydantic_field (cf n) n fi with
          | some f => dictSet base n f
          | none => base) from rfl, ih _ h']
    cases hc : convert_pydantic_field (cf n) n fi with
    | none => rfl
    | some f => exact countKey_dictSet_other base n f name (Ne.symm hn)

theorem countKey_add_mem (cf : String → Bool)
    (mfs : List (String × FieldInfo)) (base : List (String × DjangoField))
    (hbase : (base.map Prod.fst).Nodup) (name : String)
    (h : name ∈ mfs.map Prod.fst) :
    countKey (add_pydantic_fields cf { model_fields := mfs } base) name = 1 := by
  induction mfs generalizing base with
  | nil => simp at h
  | cons p rest ih =>
    obtain ⟨n, fi⟩ := p
    rw [show add_pydantic_fields cf { model_fields := (n, fi) :: rest } base =
      add_pydantic_fields cf { model_fields := rest }
        (match convert_pydantic_field (cf n) n fi with
          | some f => dictSet base n f
          | none => base) from rfl]
    have hbase' : (((match convert_pydantic_field (cf n) n fi with
        | some f => dictSet base n f
        | none => base) : List (String × DjangoField)).map Prod.fst).Nodup := by
      cases convert_pydantic_field (cf n) n fi with
      | none => exact hbase
      | some f => exact nodup_keys_dictSet base n f hbase
    by_cases hr : name ∈ rest.map Prod.fst
    · exact ih _ hbase' hr
    · have hn : name = n := by
        rcases (by simpa using h : name = n ∨ name ∈ rest.map Prod.fst) with
          h1 | h1
        · exact h1
        · exact absurd h1 hr
      subst hn
      rw [countKey_add_not_mem cf rest _ name hr]
      cases hc : convert_pydantic_field (cf name) name fi with
      | none =>
        have := convert_isSome (cf name) name fi
        rw [hc] at this
        simp at this
      | some f => exact countKey_dictSet_self base name f hbase

/-- C7: translation is total. Conversion never fails to produce a descriptor
(every unmapped or absent type degrades to a CharField), and every model
field name ends up with exactly one descriptor in the resulting mapping. -/
theorem c7_translation_total (cf : String → Bool) (model : PydanticModel)
    (base : List (String × DjangoField))
    (hbase : (base.map Prod.fst).Nodup) :
    (∀ b name fi, (convert_pydantic_field b name fi).isSome = true) ∧
    (∀ name, name ∈ model.model_fields.map Prod.fst →
      countKey (add_pydantic_fields cf model base) name = 1) := by
  obtain ⟨mfs⟩ := model
  exact ⟨fun b name fi => convert_isSome b name fi,
    fun name h => countKey_add_mem cf mfs base hbase name h⟩

/-- C7 witness: the one-field model yields exactly one descriptor for x. -/
theorem c7_witness :
    countKey (add_pydantic_fields (fun _ => false) witnessModel []) "x" = 1 :=
  (c7_translation_total (fun _ => false) witnessModel [] (by simp)).2 "x"
    (by simp [witnessModel])

theorem errorList_appendError_same (l : List (String × List String))
    (nf : List String) (k m : String) :
    errorList ⟨appendError l k m, nf⟩ k = errorList ⟨l, nf⟩ k ++ [m] := by
  induction l with
  | nil =>
    simp only [appendError, errorList]
    rw [List.find?_cons_of_pos _ (by simp), List.find?_nil]
    simp
  | cons p rest ih =>
    obtain ⟨a, msgs⟩ := p
    by_cases h : a = k
    · subst h
      simp only [appendError, errorList]
      rw [if_pos trivial, List.find?_cons_of_pos _ (by simp),
        List.find?_cons_of_pos _ (by simp)]
      simp
    · simp only [appendError, if_neg h, errorList] at ih ⊢
      rw [List.find?_cons_of_neg _ (by simp [h]),
        List.find?_cons_of_neg _ (by simp [h])]
      exact ih

theorem errorList_appendError_other (l : List (String × List String))
    (nf : List String) (k m g : String) (h : g ≠ k) :
    errorList ⟨appendError l k m, nf⟩ g = errorList ⟨l, nf⟩ g := by
  induction l with
  | nil =>
    simp only [appendError, errorList]
    rw [List.find?_cons_of_neg _ (by simp [Ne.symm h]), List.find?_nil]
  | cons p rest ih =>
    obtain ⟨a, msgs⟩ := p
    by_cases ha : a = k
    · subst ha
      simp only [appendError, errorList]
      rw [if_pos trivial, List.find?_cons_of_neg _ (by simp [Ne.symm h]),
        List.find?_cons_of_neg _ (by simp [Ne.symm h])]
    · simp only [appendError, if_neg ha, errorList] at ih ⊢
      by_cases hg : a = g
      · subst hg
        rw [List.find?_cons_of_pos _ (by simp), List.find?_cons_of_pos _ (by simp)]
      · rw [List.find?_cons_of_neg _ (by simp [hg]),
          List.find?_cons_of_neg _ (by simp [hg])]
        exact ih

theorem errorList_add_some_same (st : FormErrors) (key m : String) :
    errorList (add_error st (some key) m) key = errorList st key ++ [m] := by
  obtain ⟨l, nf⟩ := st
  exact errorList_appendError_same l nf key m

theorem errorList_add_some_other (st : FormErrors) (key m target : String)
    (h : target ≠ key) :
    errorList (add_error st (some key) m) target = errorList st target := by
  obtain ⟨l, nf⟩ := st
  exact errorList_appendError_other l nf key m target h

theorem errorList_add_none (st : FormErrors) (m target : String) :
    errorList (add_error st none m) target = errorList st target := rfl

theorem nonfield_add_some (st : FormErrors) (key m : String) :
    (add_error st (some key) m).non_field_errors = st.non_field_errors := rfl

theorem nonfield_add_none (st : FormErrors) (m : String) :
    (add_error st none m).non_field_errors =
      st.non_field_errors ++ [m] := rfl

/-- Processing the error list accumulates, in report order, the messages of
errors whose joined location equals a known field name onto that field. -/
theorem clean_loop_errorList (fields : List (String × DjangoField))
    (errs : List PydanticError) (st : FormErrors) (f : String)
    (hf : hasField fields f = true) :
    errorList (errs.foldl
      (fun st error =>
        let field_name := locName error
        if hasField fields field_name then add_error st (some field_name) error.msg
        else add_error st none error.msg) st) f =
      errorList st f ++
        (errs.filter (fun e => locName e == f)).map PydanticError.msg := by
  induction errs generalizing st with
  | nil => simp
  | cons e rest ih =>
    rw [List.foldl_cons, ih]
    simp only []
    by_cases he : locName e = f
    · rw [he, if_pos hf, errorList_add_some_same,
        List.filter_cons_of_pos (by simp [he])]
      simp
    · rw [List.filter_cons_of_neg (by simp [he])]
      cases hfe : hasField fields (locName e)
      · rw [if_neg (by simp), errorList_add_none]
      · rw [if_pos rfl,
          errorList_add_some_other st (locName e) e.msg f
            (fun hh => he hh.symm)]

/-- Processing the error list accumulates, in report order, the messages of
errors whose joined location matches no field onto the non-field list. -/
theorem clean_loop_nonfield (fields : List (String × DjangoField))
    (errs : List PydanticError) (st : FormErrors) :
    (errs.foldl
      (fun st error =>
        let field_name := locName error
        if hasField fields field_name then add_error st (some field_name) error.msg
        else add_error st none error.msg) st).non_field_errors =
      st.non_field_errors ++
        (errs.filter (fun e => ! hasField fields (locName e))).map
          PydanticError.msg := by
  induction errs generalizing st with
  | nil => simp
  | cons e rest ih =>
    rw [List.foldl_cons, ih]
    simp only []
    cases hfe : hasField fields (locName e)
    · rw [if_neg (by simp), List.filter_cons_of_pos (by simp [hfe]),
        nonfield_add_none]
      simp
    · rw [if_pos rfl, List.filter_cons_of_neg (by simp [hfe]),
        nonfield_add_some]

/-- C8: a validation failure is converted into error-list state, never an
exception: each error path is joined with a dot into a field name; messages
land on the matching field's error list in report order, and on the non-field
list when no descriptor matches; a successful validation leaves the error
state empty. -/
theorem c8_validation_bridge (fields : List (String × DjangoField))
    (errs : List PydanticError) (f : String) :
    (hasField fields f = true →
      errorList (clean fields (ValidationResult.err errs)) f =
        (errs.filter (fun e => locName e == f)).map PydanticError.msg) ∧
    ((clean fields (ValidationResult.err errs)).non_field_errors =
      (errs.filter (fun e => ! hasField fields (locName e))).map
        PydanticError.msg) ∧
    clean fields ValidationResult.ok = ⟨[], []⟩ := by
  refine ⟨fun hf => ?_, ?_, rfl⟩
  · have h := clean_loop_errorList fields errs ⟨[], []⟩ f hf
    simpa [clean, errorList] using h
  · have h := clean_loop_nonfield fields errs ⟨[], []⟩
    simpa [clean] using h

/-- C8 witness: with one known field a, the errors at a accumulate on a in
order and the error at the unknown path b.0 lands on the non-field list. -/
theorem c8_witness :
    errorList (clean witnessFields (ValidationResult.err witnessErrors)) "a" =
      ["m1", "m3"] ∧
    (clean witnessFields (ValidationResult.err witnessErrors)).non_field_errors =
      ["m2"] := by
  constructor
  · exact ((c8_validation_bridge witnessFields witnessErrors "a").1
      (by decide)).trans (by decide)
  · exact ((c8_validation_bridge witnessFields witnessErrors "a").2.1).trans
      (by decide)

end PydanticDjangoForms
